import Mathlib

/-!
# Verification of the in-memory search index (`examples/search.py`)

Shallow embedding of `SearchIndexEntry`, `QEntry.check`, `create_search_q`,
`SearchIndex.search` / `rebuild` from `examples/search.py`.

Conventions of the embedding:
* Python strings are Lean `String`s; `str.lower()` is modelled by mapping
  `Char.toLower` over the characters (the repository's data is ASCII).
* `needle in hay` on strings is substring containment over the character
  lists; string comparison (`<`, sort keys) is code-point lexicographic
  comparison, as in Python.
* Dictionaries produced by `to_dict` are association lists in insertion
  order, so presence/absence of keys is observable.
* The integer `limit` is an `Int`, and `scored_results[:limit]` is modelled
  with Python slice semantics (a negative stop counts from the end).
* The mutable method `search(self, ...)` is embedded in state-passing style
  (`SearchIndex.searchState`); its body writes no field of `self`, so the
  returned state is the input state.
-/

namespace SearchPy

/-- Lowercasing of a character list: model of Python `str.lower()` on the
ASCII data this repository indexes. -/
def lowerL (l : List Char) : List Char := l.map Char.toLower

/-- `isSubL needle hay`: model of Python's substring test `needle in hay`. -/
def isSubL (needle hay : List Char) : Bool :=
  match hay with
  | [] => needle.isEmpty
  | _ :: t => needle.isPrefixOf hay || isSubL needle t

/-- Case-insensitive containment of `needle` in `hay`, the semantics of the
`__icontains` lookup: `needle.lower() in hay.lower()`. -/
def icontains (hay needle : String) : Bool :=
  isSubL (lowerL needle.data) (lowerL hay.data)

/-- One entry of the search index (`SearchIndexEntry` dataclass). -/
structure SearchIndexEntry where
  title : String
  description : String
  content : String
  url : String
  type : String
  category : String
  learn_more_url : Option String := none
deriving DecidableEq

/-- `SearchIndexEntry.to_dict`: the public projection rendered to templates,
as an association list in Python's key-insertion order.  `learn_more_url`
is added only when the attribute is truthy (a non-empty string). -/
def SearchIndexEntry.to_dict (e : SearchIndexEntry) : List (String × String) :=
  [("title", e.title), ("description", e.description), ("url", e.url),
   ("type", e.type), ("category", e.category)] ++
    match e.learn_more_url with
    | some s => if s = "" then [] else [("learn_more_url", s)]
    | none => []

/-- `SearchIndexEntry.get_q_field_value`: maps a field name to the attribute
value, defaulting to the empty string for unrecognized names
(`field_map.get(field_name, '')`). -/
def SearchIndexEntry.get_q_field_value (e : SearchIndexEntry) (field_name : String) : String :=
  if field_name = "title" then e.title
  else if field_name = "description" then e.description
  else if field_name = "content" then e.content
  else ""

/-- Split a character list at the first occurrence of `"__"`; `none` when
`"__"` does not occur.  Model of `field_lookup.split('__', 1)` guarded by
`'__' in field_lookup`. -/
def splitDunder : List Char → Option (List Char × List Char)
  | '_' :: '_' :: rest => some ([], rest)
  | c :: rest =>
    match splitDunder rest with
    | some (pre, post) => some (c :: pre, post)
    | none => none
  | [] => none

/-- Parse a Q-object keyword into `(field_name, lookup)`:
`field_lookup.split('__', 1)` when `'__'` occurs, else lookup `'exact'`. -/
def parseFieldLookup (s : String) : String × String :=
  match splitDunder s.data with
  | some (pre, post) => (⟨pre⟩, ⟨post⟩)
  | none => (s, "exact")

/-- `QEntry.check`: evaluate a conjunction of `(field_lookup, value)`
children against an entry.  Supported lookups are `icontains`, `contains`,
`exact`, `iexact`; any other lookup falls through the `elif` chain and the
loop continues (no constraint). -/
def qCheck : List (String × String) → SearchIndexEntry → Bool
  | [], _ => true
  | (fl, v) :: rest, e =>
    let p := parseFieldLookup fl
    let fv := e.get_q_field_value p.1
    if p.2 = "icontains" then
      if isSubL (lowerL v.data) (lowerL fv.data) then qCheck rest e else false
    else if p.2 = "contains" then
      if isSubL v.data fv.data then qCheck rest e else false
    else if p.2 = "exact" then
      if fv = v then qCheck rest e else false
    else if p.2 = "iexact" then
      if lowerL fv.data = lowerL v.data then qCheck rest e else false
    else qCheck rest e

/-- `create_search_q`: the children of the three `QEntry` objects built for
a query (`title__icontains`, `description__icontains`, `content__icontains`). -/
def create_search_q (query : String) :
    List (String × String) × List (String × String) × List (String × String) :=
  ([("title__icontains", query)],
   [("description__icontains", query)],
   [("content__icontains", query)])

/-- The scoring loop body of `SearchIndex.search` for one entry: returns
`(score, match_type)` exactly as accumulated by the source (title +100 with
+20 start-of-title bonus, description +50, content +25; match_type raised to
3 / 2 / 1 respectively, never lowered). -/
def scoreEntry (query : String) (e : SearchIndexEntry) : Nat × Nat :=
  let qs := create_search_q query
  let s0 : Nat := 0
  let t0 : Nat := 0
  let st1 :=
    if qCheck qs.1 e then
      (s0 + 100 +
        (if (lowerL query.data).isPrefixOf (lowerL e.title.data) then 20 else 0), 3)
    else (s0, t0)
  let st2 :=
    if qCheck qs.2.1 e then (st1.1 + 50, if st1.2 < 2 then 2 else st1.2)
    else st1
  let st3 :=
    if qCheck qs.2.2 e then (st2.1 + 25, if st2.2 < 1 then 1 else st2.2)
    else st2
  st3

/-- The `scored_results` list: `(score, match_type, entry)` for each entry of
the index with a positive score, in index order. -/
def scoredResults (entries : List SearchIndexEntry) (query : String) :
    List (Nat × Nat × SearchIndexEntry) :=
  entries.filterMap fun e =>
    let st := scoreEntry query e
    if 0 < st.1 then some (st.1, st.2, e) else none

/-- Code-point lexicographic `≤` on character lists: Python's string
comparison used by the sort key's third component. -/
def charListLe : List Char → List Char → Bool
  | [], _ => true
  | _ :: _, [] => false
  | a :: as, b :: bs =>
    if a < b then true else if b < a then false else charListLe as bs

/-- The sort comparator of `scored_results.sort(key=lambda x: (-x[0], x[1],
x[2].title))`: ascending lexicographic order on the key tuple, i.e. score
descending, then match_type ascending, then title ascending. -/
def resultLe (a b : Nat × Nat × SearchIndexEntry) : Bool :=
  if a.1 = b.1 then
    if a.2.1 = b.2.1 then charListLe a.2.2.title.data b.2.2.title.data
    else decide (a.2.1 < b.2.1)
  else decide (b.1 < a.1)

/-- The comparator as a decidable relation, for `List.insertionSort`. -/
def ResultLE (a b : Nat × Nat × SearchIndexEntry) : Prop := resultLe a b = true

instance : DecidableRel ResultLE := fun a b => instDecidableEqBool (resultLe a b) true

/-- The sorted `scored_results` list.  Python's `list.sort` is a stable sort
by the key tuple; insertion sort with the same total preorder is stable and
therefore produces the same sequence. -/
def sortedResults (entries : List SearchIndexEntry) (query : String) :
    List (Nat × Nat × SearchIndexEntry) :=
  (scoredResults entries query).insertionSort ResultLE

/-- Python slice `l[:k]` for an integer `k`: a nonnegative stop takes the
first `k` elements; a negative stop counts from the end of the list. -/
def listSlice {α : Type} (l : List α) (k : Int) : List α :=
  if 0 ≤ k then l.take k.toNat else l.take ((l.length : Int) + k).toNat

/-- The search index: holds the entry sequence (`self.entries`). -/
structure SearchIndex where
  entries : List SearchIndexEntry
deriving DecidableEq

/-- `SearchIndex.search(query, limit)`: empty query short-circuits to `[]`;
otherwise score every entry, keep positive scores, sort by
`(-score, match_type, title)`, truncate with `[:limit]`, and project each
surviving entry through `to_dict`. -/
def SearchIndex.search (idx : SearchIndex) (query : String) (limit : Int) :
    List (List (String × String)) :=
  if query = "" then []
  else
    (listSlice (sortedResults idx.entries query) limit).map fun r => r.2.2.to_dict

/-- State-passing embedding of the `search` method: the body assigns no
attribute of `self` (it only builds and sorts the local `scored_results`),
so the resulting index state is the input state. -/
def SearchIndex.searchState (idx : SearchIndex) (query : String) (limit : Int) :
    List (List (String × String)) × SearchIndex :=
  (idx.search query limit, idx)

/-- `SearchIndex.get_all_entries`. -/
def SearchIndex.get_all_entries (idx : SearchIndex) : List SearchIndexEntry :=
  idx.entries

/-- A raw record of the collaborator-supplied entry source
(`AUTO_DISCOVERED_EXAMPLES` / `DOCS_DATA` items). -/
structure RawItem where
  title : String
  description : String
  content : String
  url : String
  category : String
  learn_more_url : Option String := none
deriving DecidableEq

/-- `_build_index`, examples part: one appended entry per example record. -/
def entryOfExample (it : RawItem) : SearchIndexEntry :=
  ⟨it.title, it.description, it.content, it.url, "example", it.category, it.learn_more_url⟩

/-- `_build_index`, documentation part: one appended entry per doc record. -/
def entryOfDoc (it : RawItem) : SearchIndexEntry :=
  ⟨it.title, it.description, it.content, it.url, "doc", it.category, none⟩

/-- The entry sequence `_build_index` produces from a given source. -/
def buildEntries (examples docs : List RawItem) : List SearchIndexEntry :=
  examples.map entryOfExample ++ docs.map entryOfDoc

/-- The successive values of `self.entries` observable while `rebuild()`
runs: the old sequence (before `self.entries = []`), then — because
`_build_index` appends entries one at a time to the already-installed
list — every prefix of the new sequence, ending with the complete new
sequence. -/
def rebuildStates (old : List SearchIndexEntry) (examples docs : List RawItem) :
    List (List SearchIndexEntry) :=
  old :: (List.range ((examples.length + docs.length) + 1)).map
    fun i => (buildEntries examples docs).take i


/-- The "Active Search" entry of the spec's end-to-end scenario (section 8). -/
def activeEntry : SearchIndexEntry :=
  { title := "Active Search", description := "search contacts",
    content := "datastar search example", url := "/active-search/",
    type := "example", category := "Search" }

/-- The "Click to Load" entry of the spec's end-to-end scenario (section 8). -/
def clickEntry : SearchIndexEntry :=
  { title := "Click to Load", description := "pagination",
    content := "load button", url := "/click-to-load/",
    type := "example", category := "Interactive" }

/-- The two-entry index of the spec's end-to-end scenario. -/
def scenarioIndex : SearchIndex := ⟨[activeEntry, clickEntry]⟩

/-- A concrete example record, for instantiating the rebuild model. -/
def rawActive : RawItem :=
  { title := "Active Search",
    description := "Real-time search with instant results as you type",
    content := "Active Search example demonstrating real-time search functionality",
    url := "/active-search/", category := "Search",
    learn_more_url := some "/docs/active-search/" }

/-- A second concrete example record, for instantiating the rebuild model. -/
def rawClick : RawItem :=
  { title := "Click to Load",
    description := "Load more content on button click with progressive loading",
    content := "Click to Load example showing progressive loading pattern",
    url := "/click-to-load/", category := "Interactive",
    learn_more_url := some "/docs/click-to-load/" }

end SearchPy

namespace SearchPy

theorem qCheck_title (q : String) (e : SearchIndexEntry) :
    qCheck [("title__icontains", q)] e = isSubL (lowerL q.data) (lowerL e.title.data) := by
  have hp : parseFieldLookup "title__icontains" = ("title", "icontains") := rfl
  simp [qCheck, hp, SearchIndexEntry.get_q_field_value]

theorem qCheck_description (q : String) (e : SearchIndexEntry) :
    qCheck [("description__icontains", q)] e
      = isSubL (lowerL q.data) (lowerL e.description.data) := by
  have hp : parseFieldLookup "description__icontains" = ("description", "icontains") := rfl
  simp [qCheck, hp, SearchIndexEntry.get_q_field_value]

theorem qCheck_content (q : String) (e : SearchIndexEntry) :
    qCheck [("content__icontains", q)] e
      = isSubL (lowerL q.data) (lowerL e.content.data) := by
  have hp : parseFieldLookup "content__icontains" = ("content", "icontains") := rfl
  simp [qCheck, hp, SearchIndexEntry.get_q_field_value]

/-- Closed form of the scoring loop: the score is the sum of three
independent field contributions and the match tier is determined by the
highest matching field. -/
theorem scoreEntry_eq (q : String) (e : SearchIndexEntry) :
    scoreEntry q e =
      ((if isSubL (lowerL q.data) (lowerL e.title.data) then
          100 + (if (lowerL q.data).isPrefixOf (lowerL e.title.data) then 20 else 0) else 0)
        + (if isSubL (lowerL q.data) (lowerL e.description.data) then 50 else 0)
        + (if isSubL (lowerL q.data) (lowerL e.content.data) then 25 else 0),
       if isSubL (lowerL q.data) (lowerL e.title.data) then 3
       else if isSubL (lowerL q.data) (lowerL e.description.data) then 2
       else if isSubL (lowerL q.data) (lowerL e.content.data) then 1 else 0) := by
  simp only [scoreEntry, create_search_q]
  simp only [qCheck_title, qCheck_description, qCheck_content]
  cases h1 : isSubL (lowerL q.data) (lowerL e.title.data) <;>
    cases hb : (lowerL q.data).isPrefixOf (lowerL e.title.data) <;>
    cases h2 : isSubL (lowerL q.data) (lowerL e.description.data) <;>
    cases h3 : isSubL (lowerL q.data) (lowerL e.content.data) <;>
    simp [h1, hb, h2, h3]

theorem charListLe_total : ∀ a b : List Char, charListLe a b = true ∨ charListLe b a = true
  | [], _ => Or.inl rfl
  | _ :: _, [] => Or.inr rfl
  | a :: as, b :: bs => by
    rcases lt_trichotomy a b with h | h | h
    · left; simp [charListLe, h]
    · subst h
      rcases charListLe_total as bs with ih | ih
      · left; simp [charListLe, lt_irrefl, ih]
      · right; simp [charListLe, lt_irrefl, ih]
    · right; simp [charListLe, h]

theorem charListLe_trans : ∀ a b c : List Char,
    charListLe a b = true → charListLe b c = true → charListLe a c = true
  | [], _, _, _, _ => rfl
  | _ :: _, [], _, hab, _ => by simp [charListLe] at hab
  | _ :: _, _ :: _, [], _, hbc => by simp [charListLe] at hbc
  | a :: as, b :: bs, c :: cs, hab, hbc => by
    rcases lt_trichotomy a b with h1 | h1 | h1
    · rcases lt_trichotomy b c with h2 | h2 | h2
      · simp [charListLe, lt_trans h1 h2]
      · subst h2; simp [charListLe, h1]
      · rcases lt_trichotomy a c with h3 | h3 | h3
        · simp [charListLe, h3]
        · subst h3
          exact absurd hbc (by simp [charListLe, h2, asymm h2])
        · exact absurd hbc (by simp [charListLe, h2, asymm h2])
    · subst h1
      rcases lt_trichotomy a c with h2 | h2 | h2
      · simp [charListLe, h2]
      · subst h2
        simp [charListLe, lt_irrefl] at hab hbc ⊢
        exact charListLe_trans _ _ _ hab hbc
      · exact absurd hbc (by simp [charListLe, h2, asymm h2])
    · exact absurd hab (by simp [charListLe, h1, asymm h1])

/-- Inversion of the comparator: `resultLe a b` holds exactly for the
lexicographic key order (score descending, tier ascending, title ascending). -/
theorem resultLe_true_iff (a b : Nat × Nat × SearchIndexEntry) :
    resultLe a b = true ↔
      (b.1 < a.1 ∨ (a.1 = b.1 ∧ (a.2.1 < b.2.1 ∨
        (a.2.1 = b.2.1 ∧ charListLe a.2.2.title.data b.2.2.title.data = true)))) := by
  unfold resultLe
  by_cases h : a.1 = b.1
  · by_cases h2 : a.2.1 = b.2.1
    · simp [h, h2]
    · simp [h, h2]
  · simp [h]

theorem resultLe_trans (a b c : Nat × Nat × SearchIndexEntry)
    (hab : resultLe a b = true) (hbc : resultLe b c = true) : resultLe a c = true := by
  rw [resultLe_true_iff] at hab hbc ⊢
  rcases hab with h | ⟨he, ht⟩
  · rcases hbc with h' | ⟨he', ht'⟩
    · exact Or.inl (lt_trans h' h)
    · exact Or.inl (he' ▸ h)
  · rcases hbc with h' | ⟨he', ht'⟩
    · exact Or.inl (he ▸ h')
    · refine Or.inr ⟨he.trans he', ?_⟩
      rcases ht with h2 | ⟨te, tt⟩
      · rcases ht' with h2' | ⟨te', tt'⟩
        · exact Or.inl (lt_trans h2 h2')
        · exact Or.inl (te' ▸ h2)
      · rcases ht' with h2' | ⟨te', tt'⟩
        · exact Or.inl (te ▸ h2')
        · exact Or.inr ⟨te.trans te', charListLe_trans _ _ _ tt tt'⟩

theorem resultLe_total (a b : Nat × Nat × SearchIndexEntry) :
    resultLe a b = true ∨ resultLe b a = true := by
  rw [resultLe_true_iff, resultLe_true_iff]
  rcases lt_trichotomy a.1 b.1 with h | h | h
  · exact Or.inr (Or.inl h)
  · rcases lt_trichotomy a.2.1 b.2.1 with h2 | h2 | h2
    · exact Or.inl (Or.inr ⟨h, Or.inl h2⟩)
    · rcases charListLe_total a.2.2.title.data b.2.2.title.data with h3 | h3
      · exact Or.inl (Or.inr ⟨h, Or.inr ⟨h2, h3⟩⟩)
      · exact Or.inr (Or.inr ⟨h.symm, Or.inr ⟨h2.symm, h3⟩⟩)
    · exact Or.inr (Or.inr ⟨h.symm, Or.inl h2⟩)
  · exact Or.inl (Or.inl h)

theorem resultLE_isTotal : IsTotal (Nat × Nat × SearchIndexEntry) ResultLE :=
  ⟨resultLe_total⟩

theorem resultLE_isTrans : IsTrans (Nat × Nat × SearchIndexEntry) ResultLE :=
  ⟨resultLe_trans⟩

/-- `charListLe` is exactly the reflexive closure of the standard
lexicographic (alphabetical) strict order on character lists. -/
theorem charListLe_iff : ∀ a b : List Char,
    charListLe a b = true ↔ (List.Lex (· < ·) a b ∨ a = b)
  | [], [] => by
    constructor
    · intro _; exact Or.inr rfl
    · intro _; rfl
  | [], _ :: _ => by
    constructor
    · intro _; exact Or.inl List.Lex.nil
    · intro _; rfl
  | a :: as, [] => by
    constructor
    · intro h; simp [charListLe] at h
    · rintro (hl | hl)
      · cases hl
      · cases hl
  | a :: as, b :: bs => by
    by_cases h : a < b
    · exact iff_of_true (by simp [charListLe, h]) (Or.inl (List.Lex.rel h))
    · by_cases h' : b < a
      · apply iff_of_false (by simp [charListLe, h, h'])
        rintro (hl | hl)
        · cases hl with
          | rel h2 => exact absurd h2 h
          | cons h2 => exact absurd h' (lt_irrefl a)
        · injection hl with h1 _
          exact absurd h1 (ne_of_gt h')
      · have e : a = b := le_antisymm (not_lt.mp h') (not_lt.mp h)
        subst e
        simp only [charListLe, if_neg h]
        rw [charListLe_iff as bs]
        constructor
        · rintro (hl | hl)
          · exact Or.inl (List.Lex.cons hl)
          · exact Or.inr (by rw [hl])
        · rintro (hl | hl)
          · cases hl with
            | rel h2 => exact absurd h2 (lt_irrefl a)
            | cons h2 => exact Or.inl h2
          · injection hl with _ h2
            exact Or.inr h2

end SearchPy

namespace SearchPy

theorem listSlice_subset {α : Type} (l : List α) (k : Int) : listSlice l k ⊆ l := by
  unfold listSlice
  split <;> exact List.take_subset _ _

theorem mem_scoredResults {entries : List SearchIndexEntry} {q : String}
    {x : Nat × Nat × SearchIndexEntry} :
    x ∈ scoredResults entries q ↔
      ∃ e ∈ entries, 0 < (scoreEntry q e).1 ∧
        x = ((scoreEntry q e).1, (scoreEntry q e).2, e) := by
  simp only [scoredResults, List.mem_filterMap]
  constructor
  · rintro ⟨e, he, hf⟩
    by_cases hpos : 0 < (scoreEntry q e).1
    · rw [if_pos hpos] at hf
      exact ⟨e, he, hpos, (Option.some.inj hf).symm⟩
    · rw [if_neg hpos] at hf
      cases hf
  · rintro ⟨e, he, hpos, rfl⟩
    exact ⟨e, he, by rw [if_pos hpos]⟩

theorem length_sortedResults (entries : List SearchIndexEntry) (q : String) :
    (sortedResults entries q).length = (scoredResults entries q).length :=
  (List.perm_insertionSort ResultLE (scoredResults entries q)).length_eq

theorem to_dict_content_key (e : SearchIndexEntry) :
    "content" ∉ e.to_dict.map Prod.fst := by
  cases h : e.learn_more_url with
  | none => simp [SearchIndexEntry.to_dict, h]
  | some s =>
    by_cases hs : s = "" <;> simp [SearchIndexEntry.to_dict, h, hs]

theorem to_dict_lmu_key (e : SearchIndexEntry) :
    "learn_more_url" ∈ e.to_dict.map Prod.fst ↔
      ∃ s, e.learn_more_url = some s ∧ s ≠ "" := by
  cases h : e.learn_more_url with
  | none => simp [SearchIndexEntry.to_dict, h]
  | some s =>
    by_cases hs : s = "" <;> simp [SearchIndexEntry.to_dict, h, hs]

theorem string_eq_empty_iff (q : String) : q = "" ↔ q.data = [] := by
  constructor
  · intro h; rw [h]
  · intro h; exact String.ext h

theorem scoreEntry_congr (q1 q2 : String) (e : SearchIndexEntry)
    (h : lowerL q1.data = lowerL q2.data) : scoreEntry q1 e = scoreEntry q2 e := by
  rw [scoreEntry_eq, scoreEntry_eq, h]

theorem scoredResults_congr (entries : List SearchIndexEntry) (q1 q2 : String)
    (h : lowerL q1.data = lowerL q2.data) :
    scoredResults entries q1 = scoredResults entries q2 := by
  unfold scoredResults
  congr 1
  funext e
  rw [scoreEntry_congr q1 q2 e h]

end SearchPy

namespace SearchPy

/-- Claim C1 (amended): for every query `q` and every nonnegative integer
`N`, `search(q, limit=N)` is the sorted match list truncated to its first
`N` elements, and its length is `min(N, matching_count)`.  (For negative
`N` the Python slice `scored_results[:N]` instead drops the last `|N|`
matches, so `N ≤ 0` does not yield the empty sequence in general; see the
counterexample.) -/
theorem search_limit_truncation (idx : SearchIndex) (q : String) (N : Int)
    (hq : q ≠ "") (hN : 0 ≤ N) :
    idx.search q N =
      ((sortedResults idx.entries q).take N.toNat).map (fun r => r.2.2.to_dict) ∧
      (idx.search q N).length = min N.toNat (scoredResults idx.entries q).length := by
  constructor
  · unfold SearchIndex.search
    rw [if_neg hq, listSlice, if_pos hN]
  · unfold SearchIndex.search
    rw [if_neg hq, List.length_map, listSlice, if_pos hN, List.length_take,
        length_sortedResults]

theorem search_limit_truncation_witness :
    scenarioIndex.search "a" 3 =
      ((sortedResults scenarioIndex.entries "a").take (Int.toNat 3)).map
        (fun r => r.2.2.to_dict) ∧
      (scenarioIndex.search "a" 3).length =
        min (Int.toNat 3) (scoredResults scenarioIndex.entries "a").length :=
  search_limit_truncation scenarioIndex "a" 3 (by decide) (by decide)

/-- Claim C1, counterexample to the claim as stated: on the two-entry
scenario index both entries match `"a"`, and `search("a", limit=-1)` returns
one result, not the empty sequence, although `-1 ≤ 0`. -/
theorem search_negative_limit_counterexample :
    ¬((-1 : Int) ≤ 0 → scenarioIndex.search "a" (-1) = []) := by decide

/-- Claim C2, counterexample to the claim as stated: on the scenario index,
the `"search"` match of "Active Search" is scored 175 (not 120) and gets no
start-of-title bonus ("active search" does not start with "search"), and the
`"load"` match of "Click to Load" is `(125, tier 3)` — a title-and-content
match — not a content match scored 25. -/
theorem scenario_counterexample :
    (scoreEntry "search" activeEntry).1 ≠ 120 ∧
      (lowerL ("search" : String).data).isPrefixOf (lowerL activeEntry.title.data)
        = false ∧
      scoreEntry "load" clickEntry ≠ (25, 1) := by decide

/-- Claim C2 (amended): on the scenario index, `search("search")` returns
exactly one result, "Active Search", scored 175 (title 100 + description 50
+ content 25, no start bonus) at tier 3, and "Click to Load" does not match;
`search("load", limit=1)` returns exactly one result, "Click to Load",
scored 125 (title 100 + content 25) at tier 3, and "Active Search" does not
match. -/
theorem scenario_amended :
    scenarioIndex.search "search" 10 = [activeEntry.to_dict] ∧
      scoreEntry "search" activeEntry = (175, 3) ∧
      scoreEntry "search" clickEntry = (0, 0) ∧
      scenarioIndex.search "load" 1 = [clickEntry.to_dict] ∧
      scoreEntry "load" clickEntry = (125, 3) ∧
      scoreEntry "load" activeEntry = (0, 0) := by decide

/-- Claim C3: for every non-empty query the match score is the sum of
independent case-insensitive containment contributions — title +100 with
an additional +20 when the lowered title starts with the lowered query,
description +50, content +25 — the tier is 3 / 2 / 1 by the highest
matching field, and every scored result kept for ranking has a positive
score (entries scoring 0 appear in no result). -/
theorem score_decomposition (q : String) (e : SearchIndexEntry) (hq : q ≠ "")
    (entries : List SearchIndexEntry) (x : Nat × Nat × SearchIndexEntry)
    (hx : x ∈ scoredResults entries q) :
    scoreEntry q e =
      ((if icontains e.title q then
          100 + (if (lowerL q.data).isPrefixOf (lowerL e.title.data) then 20 else 0) else 0)
        + (if icontains e.description q then 50 else 0)
        + (if icontains e.content q then 25 else 0),
       if icontains e.title q then 3
       else if icontains e.description q then 2
       else if icontains e.content q then 1 else 0)
    ∧ 0 < x.1 := by
  refine ⟨scoreEntry_eq q e, ?_⟩
  rcases mem_scoredResults.mp hx with ⟨e2, _, hpos, rfl⟩
  exact hpos

theorem score_decomposition_witness :
    scoreEntry "search" activeEntry =
      ((if icontains activeEntry.title "search" then
          100 + (if (lowerL ("search" : String).data).isPrefixOf
                    (lowerL activeEntry.title.data) then 20 else 0) else 0)
        + (if icontains activeEntry.description "search" then 50 else 0)
        + (if icontains activeEntry.content "search" then 25 else 0),
       if icontains activeEntry.title "search" then 3
       else if icontains activeEntry.description "search" then 2
       else if icontains activeEntry.content "search" then 1 else 0)
    ∧ 0 < ((175, 3, activeEntry) : Nat × Nat × SearchIndexEntry).1 :=
  score_decomposition "search" activeEntry (by decide) [activeEntry]
    (175, 3, activeEntry) (by decide)

/-- Claim C4: the surviving scored entries are returned sorted by score
descending, then match tier ascending, then title in ascending alphabetical
(code-point lexicographic) order, and the sorted list is a permutation of
the scored match list. -/
theorem search_sort_order (entries : List SearchIndexEntry) (q : String) :
    List.Pairwise
      (fun a b : Nat × Nat × SearchIndexEntry =>
        b.1 < a.1 ∨ (a.1 = b.1 ∧ (a.2.1 < b.2.1 ∨ (a.2.1 = b.2.1 ∧
          (List.Lex (· < ·) a.2.2.title.data b.2.2.title.data ∨
            a.2.2.title = b.2.2.title)))))
      (sortedResults entries q)
    ∧ List.Perm (sortedResults entries q) (scoredResults entries q) := by
  constructor
  · haveI := resultLE_isTotal
    haveI := resultLE_isTrans
    have hs : List.Sorted ResultLE (sortedResults entries q) :=
      List.sorted_insertionSort ResultLE (scoredResults entries q)
    refine hs.imp ?_
    intro a b hab
    have hab2 := (resultLe_true_iff a b).mp hab
    rcases hab2 with h | ⟨he, ht⟩
    · exact Or.inl h
    · refine Or.inr ⟨he, ?_⟩
      rcases ht with h2 | ⟨te, tt⟩
      · exact Or.inl h2
      · refine Or.inr ⟨te, ?_⟩
        rcases (charListLe_iff _ _).mp tt with h3 | h3
        · exact Or.inl h3
        · exact Or.inr (String.ext h3)
  · exact List.perm_insertionSort ResultLE (scoredResults entries q)

/-- Claim C5: every result returned by `search` is some index entry
projected through `to_dict` (title, description, url, type, category);
the `content` field never appears among the result's keys; and the
`learn_more_url` key is present exactly when the entry's `learn_more_url`
is set and non-empty. -/
theorem search_result_projection (idx : SearchIndex) (q : String) (limit : Int)
    (r : List (String × String)) (hr : r ∈ idx.search q limit) :
    ∃ e ∈ idx.entries, r = e.to_dict ∧ "content" ∉ r.map Prod.fst ∧
      ("learn_more_url" ∈ r.map Prod.fst ↔ ∃ s, e.learn_more_url = some s ∧ s ≠ "") := by
  unfold SearchIndex.search at hr
  by_cases hq : q = ""
  · rw [if_pos hq] at hr
    cases hr
  · rw [if_neg hq] at hr
    rcases List.mem_map.mp hr with ⟨x, hx, rfl⟩
    have hx1 : x ∈ sortedResults idx.entries q := listSlice_subset _ _ hx
    have hx2 : x ∈ scoredResults idx.entries q := by
      rw [sortedResults] at hx1
      exact (List.mem_insertionSort ResultLE).mp hx1
    rcases mem_scoredResults.mp hx2 with ⟨e, he, hpos, rfl⟩
    exact ⟨e, he, rfl, to_dict_content_key e, to_dict_lmu_key e⟩

theorem search_result_projection_witness :
    ∃ e ∈ scenarioIndex.entries, activeEntry.to_dict = e.to_dict ∧
      "content" ∉ activeEntry.to_dict.map Prod.fst ∧
      ("learn_more_url" ∈ activeEntry.to_dict.map Prod.fst ↔
        ∃ s, e.learn_more_url = some s ∧ s ≠ "") :=
  search_result_projection scenarioIndex "search" 10 activeEntry.to_dict (by decide)

/-- Claim C6, counterexample to the claim as stated: rebuilding an index
that held the "Active Search" entry from a two-record source passes through
an observable intermediate entry sequence (the cleared list `[]`) that is
neither the complete old snapshot nor the complete new snapshot. -/
theorem rebuild_atomicity_counterexample :
    ¬(∀ s ∈ rebuildStates [entryOfExample rawActive] [rawActive, rawClick] [],
        s = [entryOfExample rawActive] ∨ s = buildEntries [rawActive, rawClick] []) := by
  decide

/-- Claim C6 (amended): `rebuild` is not a single atomic swap — it clears
`self.entries` and appends entries one at a time, so an interleaved reader
can observe, besides the old snapshot, any prefix of the new sequence
(including the empty one); the final observable state is the complete new
snapshot. -/
theorem rebuild_states_amended (old : List SearchIndexEntry)
    (examples docs : List RawItem) (s : List SearchIndexEntry)
    (hs : s ∈ rebuildStates old examples docs) :
    (s = old ∨ ∃ i, i ≤ (buildEntries examples docs).length ∧
        s = (buildEntries examples docs).take i) ∧
      buildEntries examples docs ∈ rebuildStates old examples docs := by
  have hlen : (buildEntries examples docs).length = examples.length + docs.length := by
    simp [buildEntries]
  constructor
  · rcases List.mem_cons.mp hs with h | h
    · exact Or.inl h
    · rcases List.mem_map.mp h with ⟨i, hi, rfl⟩
      have hir : i < examples.length + docs.length + 1 := List.mem_range.mp hi
      exact Or.inr ⟨i, by omega, rfl⟩
  · refine List.mem_cons_of_mem _ (List.mem_map.mpr
      ⟨examples.length + docs.length, ?_, ?_⟩)
    · exact List.mem_range.mpr (by omega)
    · rw [← hlen, List.take_length]

theorem rebuild_states_amended_witness :
    (([] : List SearchIndexEntry) = [entryOfExample rawActive] ∨
      ∃ i, i ≤ (buildEntries [rawActive, rawClick] []).length ∧
        ([] : List SearchIndexEntry) = (buildEntries [rawActive, rawClick] []).take i) ∧
      buildEntries [rawActive, rawClick] [] ∈
        rebuildStates [entryOfExample rawActive] [rawActive, rawClick] [] :=
  rebuild_states_amended [entryOfExample rawActive] [rawActive, rawClick] [] []
    (by decide)

/-- Claim C7: for every index state and every limit, searching with the
empty query returns the empty sequence (and, being a total function of the
embedding, raises no error), also on non-empty entry sets. -/
theorem empty_query_returns_empty (idx : SearchIndex) (limit : Int) :
    idx.search "" limit = [] := by
  simp [SearchIndex.search]

/-- Claim C8: search is case-insensitive — any two queries with the same
lowercasing (such as `"Search"` and `"search"`) produce identical result
lists in identical order, for every index state and limit. -/
theorem search_case_insensitive (idx : SearchIndex) (limit : Int) (q1 q2 : String)
    (h : lowerL q1.data = lowerL q2.data) :
    idx.search q1 limit = idx.search q2 limit := by
  have hnil : q1 = "" ↔ q2 = "" := by
    rw [string_eq_empty_iff, string_eq_empty_iff]
    constructor
    · intro hd
      have h2 := h
      rw [hd] at h2
      simpa [lowerL] using h2.symm
    · intro hd
      have h2 := h
      rw [hd] at h2
      simpa [lowerL] using h2
  by_cases hq : q1 = ""
  · rw [SearchIndex.search, SearchIndex.search, if_pos hq, if_pos (hnil.mp hq)]
  · have hq2 : q2 ≠ "" := fun he => hq (hnil.mpr he)
    rw [SearchIndex.search, SearchIndex.search, if_neg hq, if_neg hq2,
        sortedResults, sortedResults, scoredResults_congr idx.entries q1 q2 h]

theorem search_case_insensitive_witness :
    scenarioIndex.search "Search" 10 = scenarioIndex.search "search" 10 :=
  search_case_insensitive scenarioIndex 10 "Search" "search" (by decide)

/-- Claim C9: an `__icontains` condition over a field name other than
`title`, `description` or `content` never raises — the field value defaults
to the empty string and, for every entry and every non-empty query, the
condition check returns false (a non-match) rather than failing. -/
theorem unknown_field_no_match (e : SearchIndexEntry) (fl q : String)
    (hq : q ≠ "") (h2 : (parseFieldLookup fl).2 = "icontains")
    (ha : (parseFieldLookup fl).1 ≠ "title")
    (hb : (parseFieldLookup fl).1 ≠ "description")
    (hc : (parseFieldLookup fl).1 ≠ "content") :
    e.get_q_field_value (parseFieldLookup fl).1 = "" ∧ qCheck [(fl, q)] e = false := by
  have hv : e.get_q_field_value (parseFieldLookup fl).1 = "" := by
    unfold SearchIndexEntry.get_q_field_value
    rw [if_neg ha, if_neg hb, if_neg hc]
  refine ⟨hv, ?_⟩
  have hqd : q.data ≠ [] := fun hd => hq ((string_eq_empty_iff q).mpr hd)
  have hemp : isSubL (lowerL q.data) (lowerL ("" : String).data) = false := by
    cases hd : q.data with
    | nil => exact absurd hd hqd
    | cons c t => simp [lowerL, isSubL, hd, List.isPrefixOf]
  simp only [qCheck, hv, h2, if_pos, hemp]
  simp [hemp]

theorem unknown_field_no_match_witness :
    activeEntry.get_q_field_value (parseFieldLookup "foo__icontains").1 = "" ∧
      qCheck [("foo__icontains", "x")] activeEntry = false :=
  unknown_field_no_match activeEntry "foo__icontains" "x"
    (by decide) (by decide) (by decide) (by decide) (by decide)

/-- Claim C10: `search` is read-only with respect to index state — in the
state-passing embedding of the method, the index returned alongside the
results is the input index, entry sequence included. -/
theorem search_readonly (idx : SearchIndex) (q : String) (limit : Int) :
    (idx.searchState q limit).2 = idx ∧
      (idx.searchState q limit).2.entries = idx.entries :=
  ⟨rfl, rfl⟩

end SearchPy
